import Mathlib

set_option maxRecDepth 4000

/-!
Verification development for the CommandConnectorCompatibilityCalculator
repository.  The Python modules `app/calculations.py`, `app/recommend.py`
and their helpers are shallowly embedded below: pure functions become Lean
functions, pandas DataFrames become explicit lists of labelled columns,
Python floats become exact rationals, Python `int` becomes `Int`, and
Python exceptions (KeyError, ValueError, TypeError, RecursionError) become
explicit error values.  External library behaviour (thefuzz scorers,
pandas numeric coercion) is modelled from the specification's description
of those collaborators; each such definition says so in its doc comment.
-/

/-- Match tier attached by `match_camera` in `app/calculations.py`.  The
source stores these as colorama-wrapped strings ("exact", "identified",
"potential", "unsupported", "empty"); the colour codes carry no logic and
are dropped here. -/
inductive MatchType where
  | empty
  | exact
  | identified
  | potential
  | unsupported
deriving DecidableEq, Repr

/-- One row of the result frame produced by `match_camera`
(`app/calculations.py`): the original cell value, the match tier, and the
attached catalog model name. -/
structure MatchRow where
  name : Option String
  match_type : MatchType
  verkada_model : Option String
deriving DecidableEq, Repr

/-- Length of a longest common subsequence of two character lists,
computed by the standard dynamic-programming row recurrence.  Used to
model the similarity scorers of the external fuzzy-matching library. -/
def lcsRow (a : Char) : List Char → List ℕ → ℕ → ℕ → List ℕ
  | [], _, _, _ => []
  | b :: bs, prev, diag, left =>
    let up := prev.headD 0
    let cur := if a = b then diag + 1 else max left up
    cur :: lcsRow a bs prev.tail up cur

/-- Longest-common-subsequence length of two character lists. -/
def lcs (as bs : List Char) : ℕ :=
  (as.foldl (fun prev a => lcsRow a bs prev 0 0) (List.replicate bs.length 0)).getLastD 0

/-- Round `num / den` to the nearest integer, halves to even, as Python's
`round` does on a nonnegative quotient; the fuzzy library returns its
0-100 score through `int(round(...))`. -/
def pyRound (num den : ℕ) : ℕ :=
  let q := num / den
  let r := num % den
  if 2 * r < den then q else if den < 2 * r then q + 1 else if q % 2 = 0 then q else q + 1

/-- Similarity of two character lists: the classic
`2 * matches / (len1 + len2)` edit-distance-based ratio on a 0-100 scale,
rounded to an integer; two empty lists score 100 by the fuzzy library's
convention. -/
def fuzz_ratio_chars (a b : List Char) : ℕ :=
  if a.length + b.length = 0 then 100
  else pyRound (200 * lcs a b) (a.length + b.length)

/-- Modelled from the spec: the external scorer `fuzz.ratio` ("raw
character-level similarity (classic edit-distance-based ratio, 0-100)").
The thefuzz library itself is not part of this repository's sources. -/
def fuzz_ratio (a b : String) : ℕ :=
  fuzz_ratio_chars a.data b.data

/-- Split a character list at spaces (helper for Python `str.split()`). -/
def splitSpacesAux (cur : List Char) : List Char → List (List Char)
  | [] => [cur.reverse]
  | c :: rest =>
    if c = ' ' then cur.reverse :: splitSpacesAux [] rest
    else splitSpacesAux (c :: cur) rest

/-- Whitespace-delimited tokens of a character list (Python `str.split()`:
runs of spaces separate tokens, empty chunks are dropped). -/
def tokensOf (s : List Char) : List (List Char) :=
  (splitSpacesAux [] s).filter (· ≠ [])

/-- Lexicographic comparison of character lists by code point, as Python
compares strings when sorting tokens. -/
def tokenLe : List Char → List Char → Bool
  | [], _ => true
  | _ :: _, [] => false
  | a :: as, b :: bs =>
    if a.toNat < b.toNat then true
    else if b.toNat < a.toNat then false
    else tokenLe as bs

/-- Insert a token into a sorted token list, keeping it sorted. -/
def insertToken (x : List Char) : List (List Char) → List (List Char)
  | [] => [x]
  | y :: ys => if tokenLe x y then x :: y :: ys else y :: insertToken x ys

/-- Stable insertion sort of tokens in ascending order, as Python's
`sorted` produces. -/
def sortTokens (l : List (List Char)) : List (List Char) :=
  l.foldr insertToken []

/-- Drop duplicate tokens, keeping first occurrences (the set reduction
of the token-set scorer; the subsequent sort makes the order taken here
irrelevant). -/
def dedupTokens (seen : List (List Char)) : List (List Char) → List (List Char)
  | [] => []
  | t :: ts =>
    if seen.contains t then dedupTokens seen ts
    else t :: dedupTokens (t :: seen) ts

/-- Rejoin tokens with single spaces. -/
def joinTokens : List (List Char) → List Char
  | [] => []
  | t :: ts =>
    match ts with
    | [] => t
    | _ :: _ => t ++ ' ' :: joinTokens ts

/-- Tokens sorted alphabetically and rejoined with single spaces — the
normalisation inside the external `fuzz.token_sort_ratio` scorer. -/
def token_sort_join (s : String) : List Char :=
  joinTokens (sortTokens (tokensOf s.data))

/-- Modelled from the spec: the set-of-unique-tokens normalisation of the
external token-set scorer ("similarity after reducing each string to its
set of unique tokens (duplicate- and order-insensitive)"). -/
def token_set_join (s : String) : List Char :=
  joinTokens (sortTokens (dedupTokens [] (tokensOf s.data)))

/-- Modelled from the spec: the external scorer `fuzz.token_sort_ratio`
("similarity after sorting each string's whitespace-delimited tokens
alphabetically"). -/
def token_sort_ratio (a b : String) : ℕ :=
  fuzz_ratio_chars (token_sort_join a) (token_sort_join b)

/-- Modelled from the spec: the external scorer `fuzz.token_set_ratio`
("similarity after reducing each string to its set of unique tokens"). -/
def token_set_ratio (a b : String) : ℕ :=
  fuzz_ratio_chars (token_set_join a) (token_set_join b)

/-- Accumulator loop of `process.extractOne`: keeps the current best
`(choice, score)` pair and replaces it only on a strictly greater score,
so the first of equally scored choices wins. -/
def extractOneAux (f : String → String → ℕ) (q : String) :
    List String → String × ℕ → String × ℕ
  | [], best => best
  | c :: rest, best =>
    extractOneAux f q rest (if best.2 < f q c then (c, f q c) else best)

/-- Modelled from the spec's collaborator interface: the external
`process.extractOne(query, choices, scorer)` returns the best-scoring
choice together with its score, `none` on an empty choice list. -/
def extractOne (f : String → String → ℕ) (q : String) :
    List String → Option (String × ℕ)
  | [] => none
  | c :: rest => some (extractOneAux f q rest (c, f q c))

/-- Embedding of `match_camera` (inner function of `get_camera_match`,
`app/calculations.py` lines 237-282).  A missing cell or empty string
yields the `empty` row; otherwise the three scorers are consulted through
`extractOne` and the tier is decided by the source's branch order.  The
source subscripts `extractOne`'s result, which raises on an empty
catalog; that crash is modelled by `none`. -/
def match_camera (camera : Option String) (verkada_cameras_list : List String) :
    Option MatchRow :=
  match camera with
  | none => some { name := none, match_type := .empty, verkada_model := none }
  | some c =>
    if c = "" then some { name := none, match_type := .empty, verkada_model := none }
    else
      match extractOne fuzz_ratio c verkada_cameras_list,
            extractOne token_sort_ratio c verkada_cameras_list,
            extractOne token_set_ratio c verkada_cameras_list with
      | some (mtch, score), some (_, sort_score), some (_, set_score) =>
        if score = 100 ∨ sort_score = 100 then
          some { name := some c, match_type := .exact, verkada_model := some mtch }
        else if set_score = 100 then
          some { name := some c, match_type := .identified, verkada_model := some mtch }
        else if 80 ≤ score then
          some { name := some c, match_type := .potential, verkada_model := some mtch }
        else
          some { name := some c, match_type := .unsupported, verkada_model := none }
      | _, _, _ => none

/-- Best score a query reaches against any catalog name under a given
scorer; the value claim C1 calls "the best ratio/token-sort/token-set
score". -/
def best_score (f : String → String → ℕ) (q : String) (choices : List String) : ℕ :=
  (choices.map (f q)).foldl Nat.max 0

/-- Tier classification exactly as claim C1 (spec section 4.2) words it:
first applicable of EXACT, IDENTIFIED, POTENTIAL, else UNSUPPORTED. -/
def claim_tier (r s t : ℕ) : MatchType :=
  if r = 100 ∨ s = 100 then .exact
  else if t = 100 then .identified
  else if 80 ≤ r then .potential
  else .unsupported

/-- Matched model as claim C1 words it: the catalog name achieving the
score that triggered the rule — the ratio best for a ratio-triggered
EXACT, the token-sort best for a sort-triggered EXACT, the token-set best
for IDENTIFIED, the ratio best for POTENTIAL. -/
def claim_matched_model (c : String) (cams : List String) : Option String :=
  let r := best_score fuzz_ratio c cams
  let s := best_score token_sort_ratio c cams
  let t := best_score token_set_ratio c cams
  if r = 100 then (extractOne fuzz_ratio c cams).map (·.1)
  else if s = 100 then (extractOne token_sort_ratio c cams).map (·.1)
  else if t = 100 then (extractOne token_set_ratio c cams).map (·.1)
  else if 80 ≤ r then (extractOne fuzz_ratio c cams).map (·.1)
  else none

/-- Python exception outcomes that the embedded functions can raise. -/
inductive PyErr where
  | keyError
  | valueError
  | typeError
deriving DecidableEq, Repr

deriving instance DecidableEq for Except

/-- A DataFrame cell: the customer table is read with `dtype=str`, so a
cell is a string or NaN. -/
abbrev Cell := Option String

/-- A pandas column label: an integer (default `RangeIndex` labels, as
when a CSV is read with `header=None`) or a string (CSV header names, as
`parse_customer_list` produces). -/
inductive Label where
  | int (i : ℤ)
  | str (s : String)
deriving DecidableEq, Repr

/-- A DataFrame: ordered labelled columns of cells. -/
abbrev DF := List (Label × List Cell)

/-- Column selection `df[key]` by label; `none` models the KeyError a
missing label raises. -/
def df_get (df : DF) (l : Label) : Option (List Cell) :=
  (df.find? (fun p => decide (p.1 = l))).map (fun p => p.2)

/-- Modelled from the spec's collaborator interface: a cell that pandas
`to_numeric` coerces successfully — an optionally signed decimal literal
(the forms exercised by this development). -/
def isNumericStr (s : String) : Bool :=
  let cs := match s.data with
    | '+' :: r => r
    | '-' :: r => r
    | r => r
  cs.any (fun c => c.isDigit) && cs.all (fun c => c.isDigit || c = '.') &&
    decide (cs.count '.' ≤ 1)

/-- Python `int(string)`: an optionally signed run of digits; anything
else raises ValueError, modelled by `none`. -/
def pyIntOfString (s : String) : Option ℤ :=
  let p : Bool × List Char := match s.data with
    | '+' :: r => (false, r)
    | '-' :: r => (true, r)
    | r => (false, r)
  if p.2 ≠ [] ∧ p.2.all Char.isDigit then
    let n : ℕ := p.2.foldl (fun acc c => 10 * acc + (c.toNat - 48)) 0
    some (if p.1 then -(n : ℤ) else (n : ℤ))
  else none

/-- Value of an optionally signed decimal literal, the numeric coercion
claim C5 speaks about (non-numeric input gives `none`). -/
def pyRatOfString (s : String) : Option ℚ :=
  let p : Bool × List Char := match s.data with
    | '+' :: r => (false, r)
    | '-' :: r => (true, r)
    | r => (false, r)
  if isNumericStr s then
    let intPart : List Char := p.2.takeWhile (fun c => c ≠ '.')
    let fracPart : List Char := (p.2.dropWhile (fun c => c ≠ '.')).drop 1
    let iv : ℕ := intPart.foldl (fun acc c => 10 * acc + (c.toNat - 48)) 0
    let fv : ℕ := fracPart.foldl (fun acc c => 10 * acc + (c.toNat - 48)) 0
    let q : ℚ := (iv : ℚ) + (fv : ℚ) / ((10 : ℚ) ^ fracPart.length)
    some (if p.1 then -q else q)
  else none

/-- Word characters in the sense of the regex `\b` boundaries used by
`identify_count_column`'s pattern. -/
def isWordChar (c : Char) : Bool := c.isAlphanum || c = '_'

/-- Split a character list into maximal word-character runs (helper for
the count-column header pattern). -/
def wordRunsAux (cur : List Char) : List Char → List (List Char)
  | [] => [cur.reverse]
  | c :: rest =>
    if isWordChar c then wordRunsAux (c :: cur) rest
    else cur.reverse :: wordRunsAux [] rest

/-- Maximal word-character runs of a character list. -/
def wordRuns (s : List Char) : List (List Char) :=
  (wordRunsAux [] s).filter (· ≠ [])

/-- The case-insensitive count-column header pattern of
`identify_count_column` (`app/calculations.py` line 185): the word
"count", the character '#', or the word "quantity".  A `\b`-delimited
word occurrence is exactly a maximal word-character run equal to the
word. -/
def matchesCountPattern (s : String) : Bool :=
  let low := s.data.map Char.toLower
  (wordRuns low).contains "count".data || low.contains '#' ||
    (wordRuns low).contains "quantity".data

/-- Cleaned column values of `calculate_score` (inner function of
`identify_model_column`, `app/calculations.py` line 128): the source
replaces `""` and `" "` by NaN and drops NaN. -/
def cleanedCells (col : List Cell) : List String :=
  (col.filterMap id).filter (fun s => decide (s ≠ "") && decide (s ≠ " "))

/-- Scoring loop of `calculate_score` (`app/calculations.py` lines
148-161): iterate over the non-NaN cells, score each truthy not yet seen
value with the best token-sort similarity against the catalog, and sum.
Subscripting the scorer's result on an empty catalog raises, modelled by
`typeError`. -/
def score_loop (cams : List String) : List String → List String → Except PyErr ℕ
  | [], _ => .ok 0
  | c :: rest, seen =>
    if c ≠ "" ∧ c ∉ seen then
      match extractOne token_sort_ratio c cams with
      | none => .error .typeError
      | some p => (score_loop cams rest (c :: seen)).map (fun t => p.2 + t)
    else score_loop cams rest seen

/-- Embedding of `calculate_score` (`app/calculations.py` lines 118-162):
an empty cleaned column scores 0, an entirely numeric cleaned column is
forced to 0, otherwise the distinct truthy values are scored and
summed. -/
def calculate_score (cams : List String) (col : List Cell) : Except PyErr ℕ :=
  let cleaned := cleanedCells col
  if cleaned = [] then .ok 0
  else if cleaned.all isNumericStr then .ok 0
  else score_loop cams (col.filterMap id) []

/-- Python `int(label)` applied to a column label, as
`identify_model_column` does to `scores.idxmax()`. -/
def label_to_int : Label → Except PyErr ℤ
  | .int i => .ok i
  | .str s =>
    match pyIntOfString s with
    | some z => .ok z
    | none => .error .valueError

/-- Embedding of `identify_model_column` (`app/calculations.py` lines
104-172): score every column, and if the maximum score is positive
return `int` of the first label achieving it, else `None`.  pandas
`Series.idxmax` returns the label of the first maximum. -/
def identify_model_column (df : DF) (cams : List String) : Except PyErr (Option ℤ) :=
  match df.mapM (fun lc => (calculate_score cams lc.2).map (fun s => (lc.1, s))) with
  | .error e => .error e
  | .ok scores =>
    let mx := (scores.map (fun p => p.2)).foldl Nat.max 0
    if scores ≠ [] ∧ 0 < mx then
      match scores.find? (fun p => decide (p.2 = mx)) with
      | some p => (label_to_int p.1).map (fun i => some i)
      | none => pure none
    else pure none

/-- Embedding of `identify_count_column` (`app/calculations.py` lines
175-194): the position of the first column whose label is a string
matching the count pattern; integer labels fail the `isinstance(col,
str)` test. -/
def identify_count_column (df : DF) : Option ℕ :=
  df.findIdx? (fun lc =>
    match lc.1 with
    | .int _ => false
    | .str s => matchesCountPattern s)

/-- Value held by the `count` column `get_camera_count` adds to the
result frame: a raw cell copied from the customer table (a string), a
group size computed by `transform("count")` (an integer), or NaN. -/
inductive CountVal where
  | nan
  | str (s : String)
  | int (i : ℤ)
deriving DecidableEq, Repr

/-- A result-frame row after `get_camera_count` added the `count`
column. -/
structure GccRow where
  name : Option String
  match_type : MatchType
  verkada_model : Option String
  count : CountVal
deriving DecidableEq, Repr

/-- Row-aligned assignment `results["count"] = customer_list[...]`
(`app/calculations.py` line 211): row k of the results gets cell k of the
selected column, NaN where the column has no value. -/
def assign_counts : List MatchRow → List Cell → List GccRow
  | [], _ => []
  | r :: rs, [] =>
    { name := r.name, match_type := r.match_type,
      verkada_model := r.verkada_model, count := .nan } :: assign_counts rs []
  | r :: rs, c :: cs =>
    { name := r.name, match_type := r.match_type,
      verkada_model := r.verkada_model,
      count := match c with
        | some s => .str s
        | none => .nan } :: assign_counts rs cs

/-- One row of the fallback branch
`results["count"] = results.groupby("name")["name"].transform("count")`
(`app/calculations.py` line 214): a named row gets the number of result
rows bearing the same name; NaN-named rows get NaN. -/
def fallback_row (res : List MatchRow) (r : MatchRow) : GccRow :=
  { name := r.name, match_type := r.match_type, verkada_model := r.verkada_model,
    count := match r.name with
      | some _ => .int (res.countP (fun x => decide (x.name = r.name)))
      | none => .nan }

/-- The fallback count column over the whole result frame. -/
def fallback_counts (res : List MatchRow) : List GccRow :=
  res.map (fallback_row res)

/-- `results.drop_duplicates(["name"])` (`app/calculations.py` line 215):
keep the first row for every name value (pandas treats NaN as a
duplicate of NaN). -/
def drop_dup_names (seen : List (Option String)) : List GccRow → List GccRow
  | [] => []
  | r :: rs =>
    if r.name ∈ seen then drop_dup_names seen rs
    else r :: drop_dup_names (r.name :: seen) rs

/-- The row filter of `app/calculations.py` lines 216-218: keep rows
whose name is non-NaN or whose match type differs from "empty". -/
def filter_empty_rows (l : List GccRow) : List GccRow :=
  l.filter (fun r => r.name.isSome || decide (r.match_type ≠ .empty))

/-- Deduplicate-then-filter tail shared by both branches of
`get_camera_count`. -/
def results_pipeline (l : List GccRow) : List GccRow :=
  filter_empty_rows (drop_dup_names [] l)

/-- Embedding of `get_camera_count` (`app/calculations.py` lines
197-219).  The walrus `if count_column_name := identify_count_column(...)`
tests the returned position for truthiness, so position 0 (and `None`)
take the fallback branch; a truthy position i is used as the *label* in
`customer_list[i]`, raising KeyError when no column is labelled by the
integer i. -/
def get_camera_count (df : DF) (res : List MatchRow) : Except PyErr (List GccRow) :=
  match identify_count_column df with
  | some i =>
    if i ≠ 0 then
      match df_get df (.int (i : ℤ)) with
      | some col => .ok (results_pipeline (assign_counts res col))
      | none => .error .keyError
    else .ok (results_pipeline (fallback_counts res))
  | none => .ok (results_pipeline (fallback_counts res))

/-- Embedding of `calculate_low_mp_storage` (`app/calculations.py` lines
454-479); floats are modelled as exact rationals.  Note the third branch
multiplies by the 90-day count while the first two do not. -/
def calculate_low_mp_storage (channels : ℤ) (retention : ℤ) : ℚ :=
  if retention ≤ 30 then (channels : ℚ) * 0.256
  else if retention ≤ 60 then (channels : ℚ) * 0.512
  else if retention ≤ 90 then (channels : ℚ) * 0.768 * 90
  else 0

/-- Embedding of `calculate_4k_storage` (`app/calculations.py` lines
482-506); every branch multiplies the per-channel figure by the day
count. -/
def calculate_4k_storage (channels : ℤ) (retention : ℤ) : ℚ :=
  if retention ≤ 30 then (channels : ℚ) * 0.512 * 30
  else if retention ≤ 60 then (channels : ℚ) * 1.024 * 60
  else if retention ≤ 90 then (channels : ℚ) * 2.048 * 90
  else 0

/-- The `Connector` TypedDict of `app/__init__.py`. -/
structure Connector where
  name : String
  storage : ℤ
  low_channels : ℤ
  high_channels : ℤ
deriving DecidableEq, Repr

/-- The CC300-4TB SKU of `app/recommend.py`. -/
def cc300_4tb : Connector := { name := "CC300-4TB", storage := 4, low_channels := 10, high_channels := 5 }

/-- The CC300-8TB SKU of `app/recommend.py`. -/
def cc300_8tb : Connector := { name := "CC300-8TB", storage := 8, low_channels := 10, high_channels := 5 }

/-- The CC500-8TB SKU of `app/recommend.py`. -/
def cc500_8tb : Connector := { name := "CC500-8TB", storage := 8, low_channels := 25, high_channels := 12 }

/-- The CC500-16TB SKU of `app/recommend.py`. -/
def cc500_16tb : Connector := { name := "CC500-16TB", storage := 16, low_channels := 25, high_channels := 12 }

/-- The CC700-16TB SKU of `app/recommend.py`. -/
def cc700_16tb : Connector := { name := "CC700-16TB", storage := 16, low_channels := 50, high_channels := 25 }

/-- The CC700-32TB SKU of `app/recommend.py`. -/
def cc700_32tb : Connector := { name := "CC700-32TB", storage := 32, low_channels := 50, high_channels := 25 }

/-- `COMMAND_CONNECTORS` of `app/recommend.py` lines 34-71, in source
order. -/
def command_connectors : List Connector :=
  [cc300_4tb, cc300_8tb, cc500_8tb, cc500_16tb, cc700_16tb, cc700_32tb]

/-- Embedding of the helper `is_better_connector` inside `get_connectors`
(`app/recommend.py` lines 104-121).  The running minima start at
`float("inf")`, modelled as `⊤` in `WithTop ℚ`.  Note the final clause
compares the storage surplus against the *channel* minimum. -/
def is_better_connector (surplus_channels surplus_storage : ℚ)
    (min_surplus_channels min_surplus_storage : WithTop ℚ) : Bool :=
  (decide (0 ≤ surplus_channels) && decide (0 ≤ surplus_storage) &&
    (decide ((surplus_storage : WithTop ℚ) < min_surplus_storage) ||
      (decide ((surplus_storage : WithTop ℚ) = min_surplus_storage) &&
        decide ((surplus_channels : WithTop ℚ) < min_surplus_channels)))) ||
  (decide (surplus_channels = 0) &&
    decide ((surplus_storage : WithTop ℚ) < min_surplus_channels))

/-- First storage preference rounding of `app/recommend.py` line 148. -/
def round_storage1 (st : ℚ) : ℚ := if 4 < st ∧ st < 8 then 8 else st

/-- Second storage preference rounding of `app/recommend.py` line 150. -/
def round_storage2 (st : ℚ) : ℚ := if 8 < st ∧ st < 16 then 16 else st

/-- Third storage preference rounding of `app/recommend.py` line 152. -/
def round_storage3 (st : ℚ) : ℚ := if 16 < st ∧ st < 32 then 32 else st

/-- The three sequential storage roundings applied at the top of every
device iteration (`app/recommend.py` lines 146-153). -/
def round_storage (st : ℚ) : ℚ := round_storage3 (round_storage2 (round_storage1 st))

/-- Channel preference rounding of `app/recommend.py` lines 156-158. -/
def round_channels (ch : ℤ) : ℤ := if 10 < ch ∧ ch < 25 then 25 else ch

/-- Mutable state of the device loop in `get_connectors`: the (rounded)
remaining demand, the best device so far, and the running minima. -/
structure SelState where
  channels : ℤ
  storage : ℚ
  best : Option Connector
  min_surplus_channels : WithTop ℚ
  min_surplus_storage : WithTop ℚ
deriving DecidableEq, Repr

/-- One iteration of the device loop of `get_connectors`
(`app/recommend.py` lines 144-176): round the outer channel/storage
variables, compute the surpluses, and keep the device if
`is_better_connector` says so. -/
def sel_step (s : SelState) (device : Connector) : SelState :=
  let storage := round_storage s.storage
  let channels := round_channels s.channels
  let surplus_channels : ℚ := |(device.low_channels : ℚ) - (channels : ℚ)|
  let surplus_storage : ℚ := |(device.storage : ℚ) - storage|
  if is_better_connector surplus_channels surplus_storage
      s.min_surplus_channels s.min_surplus_storage then
    { channels := channels, storage := storage, best := some device,
      min_surplus_channels := surplus_channels,
      min_surplus_storage := surplus_storage }
  else
    { channels := channels, storage := storage, best := s.best,
      min_surplus_channels := s.min_surplus_channels,
      min_surplus_storage := s.min_surplus_storage }

/-- The whole device loop of one `get_connectors` iteration. -/
def select_loop (devices : List Connector) (channels : ℤ) (storage : ℚ) : SelState :=
  devices.foldl sel_step
    { channels := channels, storage := storage, best := none,
      min_surplus_channels := ⊤, min_surplus_storage := ⊤ }

/-- One call body of the recursive `get_connectors` (`app/recommend.py`
lines 82-191): clamp the remaining demand at zero, stop when both demands
are met, otherwise run the device loop, append the winner, subtract its
capacity from the still-positive demands and hand the reduced demand to
the next recursive call (`Sum.inr`). -/
def get_connectors_iter (channels : ℤ) (storage : ℚ) (recommendation : List Connector) :
    (List Connector) ⊕ (ℤ × ℚ × List Connector) :=
  let channels := max channels 0
  let storage := max storage 0
  if channels ≤ 0 ∧ storage ≤ 0 then .inl recommendation
  else
    let s := select_loop command_connectors channels storage
    match s.best with
    | some best =>
      .inr (if 0 < s.channels then s.channels - best.low_channels else s.channels,
            if 0 < s.storage then s.storage - (best.storage : ℚ) else s.storage,
            recommendation ++ [best])
    | none => .inl recommendation

/-- Embedding of the recursive `get_connectors` (`app/recommend.py` lines
82-191) with explicit fuel modelling the Python interpreter's recursion
limit: `none` is the RecursionError the unbounded source recursion raises
when the fuel runs out. -/
def get_connectors_fuel : ℕ → ℤ → ℚ → List Connector → Option (List Connector)
  | 0, _, _, _ => none
  | n + 1, channels, storage, recommendation =>
    match get_connectors_iter channels storage recommendation with
    | .inl r => some r
    | .inr p => get_connectors_fuel n p.1 p.2.1 p.2.2

/-- The `MemoryStorage` fields used by the recommender
(`app/memory_management.py`): both start as `None`. -/
structure MemoryStorage where
  recommendations : Option (List Connector) := none
  excess_channels : Option ℤ := none
deriving DecidableEq, Repr

/-- Modelled from the spec: `calculate_excess_channels` is imported into
`app/recommend.py` from `app.calculations` but its definition is missing
from the sources; spec section 4.4 defines it as
`excess_channels = sum(selected[i].low_channels) - original_required_channels`. -/
def calculate_excess_channels (required_channels : ℤ) (recommendations : List Connector) : ℤ :=
  (recommendations.map (fun c => c.low_channels)).sum - required_channels

/-- Embedding of `recommend_connector` (`app/recommend.py` lines
194-235): total channels are `low + 2 * high`; a RecursionError from
`get_connectors` is caught and replaced by the empty list; the
recommendations and the excess channels are stored in memory. -/
def recommend_connector (low_channels high_channels : ℤ) (storage : ℚ)
    (limit : ℕ) (memory : MemoryStorage) : MemoryStorage :=
  let total_required_channels := low_channels + high_channels * 2
  let recommendations := (get_connectors_fuel limit total_required_channels storage []).getD []
  let excess := calculate_excess_channels total_required_channels recommendations
  { memory with recommendations := some recommendations, excess_channels := some excess }

/-- The `CompatibleModel` dataclass of `app/__init__.py`; the spec-table
enrichment accumulates fractional megapixel and channel figures, so both
are rationals. -/
structure CompatibleModel where
  model_name : String
  manufacturer : String
  minimum_supported_firmware_version : String
  notes : String
  mp : ℚ
  channels : ℚ
deriving DecidableEq, Repr

/-- Modelled from the spec: `find_verkada_camera` is imported by
`app/calculations.py` from `app.formatting` but its definition is missing
from the sources; per the spec's data model it looks a camera up in the
catalog by model name. -/
def find_verkada_camera (name : String) (cams : List CompatibleModel) : Option CompatibleModel :=
  cams.find? (fun m => decide (m.model_name = name))

/-- A matched result row as `count_mp` consumes it: the attached catalog
model, and the aggregated count already coerced to an integer (the source
applies `int(row["count"])`). -/
structure CountedRow where
  verkada_model : Option String
  count : ℤ
deriving DecidableEq, Repr

/-- Embedding of `count_mp` (`app/calculations.py` lines 627-655): rows
with an attached catalog model found in the list contribute their count
to the low channel total when the model has at most 5 megapixels and to
the high total otherwise. -/
def count_mp (rows : List CountedRow) (cams : List CompatibleModel) : ℤ × ℤ :=
  rows.foldl (fun acc row =>
    match row.verkada_model with
    | none => acc
    | some n =>
      match find_verkada_camera n cams with
      | some m => if m.mp ≤ 5 then (acc.1 + row.count, acc.2) else (acc.1, acc.2 + row.count)
      | none => acc) (0, 0)

/-- Embedding of the driver `recommend_connectors` (`app/recommend.py`
lines 239-284): when memory is empty or a change is flagged, compute the
channel counts, the storage for the given retention, and delegate to
`recommend_connector`; otherwise leave memory untouched. -/
def recommend_connectors (change : Bool) (retention : ℤ) (rows : List CountedRow)
    (cams : List CompatibleModel) (limit : ℕ) (memory : MemoryStorage) : MemoryStorage :=
  let run_calc := (memory.recommendations.isNone && memory.excess_channels.isNone) || change
  if run_calc then
    let counts := count_mp rows cams
    let low_storage := calculate_low_mp_storage counts.1 retention
    let high_storage := calculate_4k_storage counts.2 retention
    recommend_connector counts.1 counts.2 (low_storage + high_storage) limit memory
  else memory

/-- Column score as claim C8 (spec section 4.1) words it: the sum, over
the distinct non-blank string values of the column, of the best
token-sort similarity to any catalog name, with a column whose cleaned
values are entirely numeric forced to 0. -/
def column_score_spec (cams : List String) (col : List Cell) : ℕ :=
  if (cleanedCells col).all isNumericStr then 0
  else ∑ v ∈ ((col.filterMap id).filter (fun s => decide (s ≠ ""))).toFinset,
    best_score token_sort_ratio v cams

/-- Model-column identification as claim C8 words it: the first column
index achieving the strictly greatest positive score, null when every
column scores 0 or the table is empty. -/
def claim_identify (cams : List String) (cols : List (List Cell)) : Option ℕ :=
  let ss := cols.map (column_score_spec cams)
  let mx := ss.foldl Nat.max 0
  if cols ≠ [] ∧ 0 < mx then some (ss.findIdx (fun s => decide (s = mx))) else none

/-- A table whose column labels are the default integer positions
0..n-1, as pandas produces for a CSV read with `header=None`. -/
def default_labeled (cols : List (List Cell)) : DF :=
  cols.enum.map (fun p => (Label.int (p.1 : ℤ), p.2))

/-- Numeric coercion of a count cell as claim C5 words it: non-numeric or
missing cells coerce to 0. -/
def coerced_cell (c : Cell) : ℚ :=
  match c with
  | some s => (pyRatOfString s).getD 0
  | none => 0

/-- Count aggregation as claim C5 words it for the count-column case: the
sum of the count column's numeric-coerced values over all rows sharing
the given name. -/
def claim_count_sum : List MatchRow → List Cell → Option String → ℚ
  | [], _, _ => 0
  | r :: rs, [], n =>
    (if r.name = n then coerced_cell none else 0) + claim_count_sum rs [] n
  | r :: rs, c :: cs, n =>
    (if r.name = n then coerced_cell c else 0) + claim_count_sum rs cs n

/-- SKU selection as claim C6 words it: the catalog SKU minimizing
`|sku.storage - remaining_storage|` with `|sku.low_channels -
remaining_channels|` as the tie-break, the earlier SKU winning further
ties. -/
def claim_two_key_best (devices : List Connector) (channels : ℤ) (storage : ℚ) :
    Option Connector :=
  devices.foldl (fun best d =>
    match best with
    | none => some d
    | some b =>
      let dss : ℚ := |(d.storage : ℚ) - storage|
      let bss : ℚ := |(b.storage : ℚ) - storage|
      let dsc : ℚ := |(d.low_channels : ℚ) - (channels : ℚ)|
      let bsc : ℚ := |(b.low_channels : ℚ) - (channels : ℚ)|
      if dss < bss ∨ (dss = bss ∧ dsc < bsc) then some d else some b) none

/-- One step of the device loop evaluated against fixed, already rounded
demands (used to state that the in-loop rounding of `get_connectors` is
equivalent to rounding once before scoring). -/
def sel_step_fixed (channels : ℤ) (storage : ℚ)
    (acc : Option Connector × WithTop ℚ × WithTop ℚ) (device : Connector) :
    Option Connector × WithTop ℚ × WithTop ℚ :=
  let surplus_channels : ℚ := |(device.low_channels : ℚ) - (channels : ℚ)|
  let surplus_storage : ℚ := |(device.storage : ℚ) - storage|
  if is_better_connector surplus_channels surplus_storage acc.2.1 acc.2.2 then
    (some device, surplus_channels, surplus_storage)
  else acc

/-- The device loop evaluated against fixed demands. -/
def select_fixed (devices : List Connector) (channels : ℤ) (storage : ℚ) :
    Option Connector × WithTop ℚ × WithTop ℚ :=
  devices.foldl (sel_step_fixed channels storage) (none, ⊤, ⊤)

example : lcs "beta alpha".data "beta alphq".data = 9 := by decide
example : fuzz_ratio "beta alpha" "beta alphq" = 90 := by decide
example : fuzz_ratio "beta alpha" "alpha beta" = 50 := by decide
example : token_sort_ratio "beta alpha" "alpha beta" = 100 := by decide
example : extractOne fuzz_ratio "beta alpha" ["alpha beta", "beta alphq"] =
    some ("beta alphq", 90) := by decide
example : extractOne token_sort_ratio "beta alpha" ["alpha beta", "beta alphq"] =
    some ("alpha beta", 100) := by decide

example : get_connectors_fuel 10 10 5 [] = some [cc300_8tb] := by
  with_unfolding_all decide
example : get_connectors_fuel 10 25 16 [] = some [cc500_16tb] := by
  with_unfolding_all decide
example : get_connectors_fuel 10 30 20 [] = some [cc700_32tb] := by
  with_unfolding_all decide
example : get_connectors_fuel 10 0 0 [] = some [] := by
  with_unfolding_all decide
example : get_connectors_fuel 10 (-5) (-10) [] = some [] := by
  with_unfolding_all decide
example : get_connectors_fuel 10 100 100 [] =
    some [cc700_32tb, cc700_32tb, cc700_32tb, cc300_4tb] := by
  with_unfolding_all decide

/-- Claim C2: the storage policy is claimed to be the per-channel figures
0.256/0.512/0.768 TB (low) and 0.512/1.024/2.048 TB (high) with no
multiplication by the day count; the source multiplies the third low tier
and every high tier by the day count, so at one channel and 90-day
retention the low storage is 69.12 TB instead of the claimed 0.768 TB,
and at 30-day retention a high channel costs 15.36 TB instead of the
claimed 0.512 TB. -/
theorem c2_storage_day_multiplier_bug :
    calculate_low_mp_storage 1 90 = 69.12 ∧ (69.12 : ℚ) ≠ 0.768 ∧
    calculate_4k_storage 1 30 = 15.36 ∧ (15.36 : ℚ) ≠ 0.512 ∧
    calculate_low_mp_storage 1 30 = 0.256 ∧ calculate_low_mp_storage 1 60 = 0.512 := by
  refine ⟨?_, ?_, ?_, ?_, ?_, ?_⟩ <;>
    norm_num [calculate_low_mp_storage, calculate_4k_storage]

/-- Claim C1, counterexample: on the catalog
`["alpha beta", "beta alphq"]` and the cell `"beta alpha"`, the best
ratio score is 90 (for "beta alphq"), the best token-sort score is 100
(for "alpha beta"), so EXACT is triggered by the sort score; the claim
says the attached model is then the token-sort best "alpha beta", but the
source always attaches the ratio best, here "beta alphq". -/
theorem c1_counterexample :
    match_camera (some "beta alpha") ["alpha beta", "beta alphq"] =
      some { name := some "beta alpha", match_type := .exact,
             verkada_model := some "beta alphq" } ∧
    claim_matched_model "beta alpha" ["alpha beta", "beta alphq"] = some "alpha beta" ∧
    ("beta alphq" : String) ≠ "alpha beta" :=
  ⟨by decide, by decide, by decide⟩

/-- Claim C6, counterexample: with remaining channels 50 and remaining
storage 4 (no preference rounding applies), the two-key surplus distance
of the claim picks CC300-4TB (storage distance 0), but the source's
`is_better_connector` has a final clause that lets a later SKU with exact
channel match and storage distance below the running channel minimum win:
the single `get_connectors` iteration selects CC700-16TB. -/
theorem c6_counterexample :
    get_connectors_fuel 3 50 4 [] = some [cc700_16tb] ∧
    claim_two_key_best command_connectors 50 4 = some cc300_4tb ∧
    cc700_16tb ≠ cc300_4tb :=
  ⟨by with_unfolding_all decide, by with_unfolding_all decide, by decide⟩

lemma extractOneAux_snd (f : String → String → ℕ) (q : String) (l : List String)
    (b : String × ℕ) :
    (extractOneAux f q l b).2 = (l.map (f q)).foldl Nat.max b.2 := by
  induction l generalizing b with
  | nil => rfl
  | cons c rest ih =>
    simp only [extractOneAux, List.map_cons, List.foldl_cons]
    rw [ih]
    congr 1
    split
    · exact (Nat.max_eq_right (le_of_lt (by assumption))).symm
    · exact (Nat.max_eq_left (Nat.le_of_not_lt (by assumption))).symm

lemma extractOne_eq_best (f : String → String → ℕ) (q : String) (l : List String)
    (h : l ≠ []) :
    ∃ w, extractOne f q l = some (w, best_score f q l) := by
  match l, h with
  | c :: rest, _ =>
    refine ⟨(extractOneAux f q rest (c, f q c)).1, ?_⟩
    have hs := extractOneAux_snd f q rest (c, f q c)
    simp only [extractOne, best_score, List.map_cons, List.foldl_cons, Nat.zero_max]
    rw [← hs]

/-- Claim C1, amended: for a non-empty catalog and a non-blank cell the
tier is classified by the first applicable rule exactly as the claim
orders them (EXACT on a ratio or token-sort score of 100, else
IDENTIFIED on a token-set score of 100, else POTENTIAL on a ratio score
of at least 80, else UNSUPPORTED), but the attached matched model is
always the catalog name achieving the best *ratio* score — also when the
token-sort score triggered EXACT and for IDENTIFIED — and null for
UNSUPPORTED. -/
theorem c1_matched_model_is_ratio_best (c : String) (cams : List String)
    (hc : c ≠ "") (hcams : cams ≠ []) :
    ∃ m, extractOne fuzz_ratio c cams = some (m, best_score fuzz_ratio c cams) ∧
      match_camera (some c) cams = some
        { name := some c,
          match_type := claim_tier (best_score fuzz_ratio c cams)
            (best_score token_sort_ratio c cams) (best_score token_set_ratio c cams),
          verkada_model :=
            if claim_tier (best_score fuzz_ratio c cams)
                (best_score token_sort_ratio c cams)
                (best_score token_set_ratio c cams) = .unsupported
            then none else some m } := by
  obtain ⟨m, hm⟩ := extractOne_eq_best fuzz_ratio c cams hcams
  obtain ⟨m1, hm1⟩ := extractOne_eq_best token_sort_ratio c cams hcams
  obtain ⟨m2, hm2⟩ := extractOne_eq_best token_set_ratio c cams hcams
  refine ⟨m, hm, ?_⟩
  by_cases h1 : best_score fuzz_ratio c cams = 100 ∨ best_score token_sort_ratio c cams = 100
  · simp [match_camera, hm, hm1, hm2, hc, h1, claim_tier]
  · by_cases h2 : best_score token_set_ratio c cams = 100
    · simp [match_camera, hm, hm1, hm2, hc, h1, h2, claim_tier]
    · by_cases h3 : 80 ≤ best_score fuzz_ratio c cams
      · simp [match_camera, hm, hm1, hm2, hc, h1, h2, h3, claim_tier]
      · simp [match_camera, hm, hm1, hm2, hc, h1, h2, h3, claim_tier]

/-- Claim C1, witness: the amended theorem applied to the cell "x" and
the one-name catalog ["x"]. -/
theorem c1_matched_model_is_ratio_best_witness :
    ∃ m, extractOne fuzz_ratio "x" ["x"] = some (m, best_score fuzz_ratio "x" ["x"]) ∧
      match_camera (some "x") ["x"] = some
        { name := some "x",
          match_type := claim_tier (best_score fuzz_ratio "x" ["x"])
            (best_score token_sort_ratio "x" ["x"]) (best_score token_set_ratio "x" ["x"]),
          verkada_model :=
            if claim_tier (best_score fuzz_ratio "x" ["x"])
                (best_score token_sort_ratio "x" ["x"])
                (best_score token_set_ratio "x" ["x"]) = .unsupported
            then none else some m } :=
  c1_matched_model_is_ratio_best "x" ["x"] (by decide) (by decide)

lemma round_storage_idem (st : ℚ) : round_storage (round_storage st) = round_storage st := by
  unfold round_storage round_storage3 round_storage2 round_storage1
  split_ifs <;> simp_all <;> linarith

lemma round_channels_idem (ch : ℤ) : round_channels (round_channels ch) = round_channels ch := by
  unfold round_channels
  split_ifs <;> simp_all

lemma foldl_sel_step_fixed (devices : List Connector) (s : SelState)
    (hch : round_channels s.channels = s.channels)
    (hst : round_storage s.storage = s.storage) :
    devices.foldl sel_step s =
      { channels := s.channels, storage := s.storage,
        best := (devices.foldl (sel_step_fixed s.channels s.storage)
          (s.best, s.min_surplus_channels, s.min_surplus_storage)).1,
        min_surplus_channels := (devices.foldl (sel_step_fixed s.channels s.storage)
          (s.best, s.min_surplus_channels, s.min_surplus_storage)).2.1,
        min_surplus_storage := (devices.foldl (sel_step_fixed s.channels s.storage)
          (s.best, s.min_surplus_channels, s.min_surplus_storage)).2.2 } := by
  induction devices generalizing s with
  | nil => simp only [List.foldl_nil]
  | cons d ds ih =>
    simp only [List.foldl_cons]
    have hs : sel_step s d =
        { channels := s.channels, storage := s.storage,
          best := (sel_step_fixed s.channels s.storage
            (s.best, s.min_surplus_channels, s.min_surplus_storage) d).1,
          min_surplus_channels := (sel_step_fixed s.channels s.storage
            (s.best, s.min_surplus_channels, s.min_surplus_storage) d).2.1,
          min_surplus_storage := (sel_step_fixed s.channels s.storage
            (s.best, s.min_surplus_channels, s.min_surplus_storage) d).2.2 } := by
      simp only [sel_step, sel_step_fixed, hch, hst]
      split <;> rfl
    rw [hs]
    exact ih _ hch hst

lemma select_loop_char (d : Connector) (ds : List Connector) (ch : ℤ) (st : ℚ) :
    select_loop (d :: ds) ch st =
      { channels := round_channels ch, storage := round_storage st,
        best := (select_fixed (d :: ds) (round_channels ch) (round_storage st)).1,
        min_surplus_channels :=
          (select_fixed (d :: ds) (round_channels ch) (round_storage st)).2.1,
        min_surplus_storage :=
          (select_fixed (d :: ds) (round_channels ch) (round_storage st)).2.2 } := by
  unfold select_loop select_fixed
  rw [List.foldl_cons, List.foldl_cons]
  have h0 : sel_step
      { channels := ch, storage := st, best := none,
        min_surplus_channels := ⊤, min_surplus_storage := ⊤ } d =
      { channels := round_channels ch, storage := round_storage st,
        best := (sel_step_fixed (round_channels ch) (round_storage st) (none, ⊤, ⊤) d).1,
        min_surplus_channels :=
          (sel_step_fixed (round_channels ch) (round_storage st) (none, ⊤, ⊤) d).2.1,
        min_surplus_storage :=
          (sel_step_fixed (round_channels ch) (round_storage st) (none, ⊤, ⊤) d).2.2 } := by
    simp only [sel_step, sel_step_fixed]
    split <;> rfl
  rw [h0]
  exact foldl_sel_step_fixed ds _ (round_channels_idem ch) (round_storage_idem st)

lemma sel_step_fixed_fst_mem (ch : ℤ) (st : ℚ) :
    ∀ (devices : List Connector) (acc : Option Connector × WithTop ℚ × WithTop ℚ) (b : Connector),
      (devices.foldl (sel_step_fixed ch st) acc).1 = some b → b ∈ devices ∨ acc.1 = some b := by
  intro devices
  induction devices with
  | nil => intro acc b h; exact Or.inr h
  | cons d ds ih =>
    intro acc b h
    rw [List.foldl_cons] at h
    rcases ih _ b h with hmem | hacc
    · exact Or.inl (List.mem_cons_of_mem d hmem)
    · unfold sel_step_fixed at hacc
      by_cases hc : is_better_connector (|(d.low_channels : ℚ) - (ch : ℚ)|)
          (|(d.storage : ℚ) - st|) acc.2.1 acc.2.2 = true
      · simp only [hc, if_pos] at hacc
        simp only [Option.some.injEq] at hacc
        exact Or.inl (hacc ▸ List.mem_cons_self d ds)
      · simp only [Bool.not_eq_true] at hc
        simp only [hc, Bool.false_eq_true, if_false] at hacc
        exact Or.inr hacc

lemma is_better_connector_top (sc ss : ℚ) (h1 : 0 ≤ sc) (h2 : 0 ≤ ss) :
    is_better_connector sc ss ⊤ ⊤ = true := by
  simp [is_better_connector, h1, h2]

lemma sel_step_fixed_fst_isSome (ch : ℤ) (st : ℚ) :
    ∀ (devices : List Connector) (acc : Option Connector × WithTop ℚ × WithTop ℚ),
      acc.1.isSome → ((devices.foldl (sel_step_fixed ch st) acc).1).isSome := by
  intro devices
  induction devices with
  | nil => intro acc h; exact h
  | cons d ds ih =>
    intro acc h
    rw [List.foldl_cons]
    apply ih
    by_cases hc : is_better_connector (|(d.low_channels : ℚ) - (ch : ℚ)|)
        (|(d.storage : ℚ) - st|) acc.2.1 acc.2.2 = true
    · simp [sel_step_fixed, hc]
    · simp [sel_step_fixed, hc, h]

lemma select_fixed_isSome (d : Connector) (ds : List Connector) (ch : ℤ) (st : ℚ) :
    ((select_fixed (d :: ds) ch st).1).isSome := by
  unfold select_fixed
  rw [List.foldl_cons]
  apply sel_step_fixed_fst_isSome
  unfold sel_step_fixed
  rw [if_pos]
  · rfl
  · exact is_better_connector_top _ _ (abs_nonneg _) (abs_nonneg _)

lemma round_storage_gt32 (st : ℚ) (h : 32 < st) : round_storage st = st := by
  unfold round_storage round_storage3 round_storage2 round_storage1
  split_ifs <;> simp_all <;> linarith

lemma command_connectors_storage_le (b : Connector) (hb : b ∈ command_connectors) :
    (b.storage : ℚ) ≤ 32 := by
  have hz : b.storage ≤ 32 := by fin_cases hb <;> decide
  exact_mod_cast hz

lemma get_connectors_fuel_none (n : ℕ) :
    ∀ (ch : ℤ) (st : ℚ) (acc : List Connector), 32 * (n : ℚ) < st →
      get_connectors_fuel n ch st acc = none := by
  induction n with
  | zero => intro ch st acc h; rfl
  | succ n ih =>
    intro ch st acc h
    have hn : (0 : ℚ) ≤ (n : ℚ) := Nat.cast_nonneg n
    have hcast : 32 * ((n : ℚ) + 1) < st := by push_cast at h; linarith
    have hst32 : (32 : ℚ) < st := by linarith
    have hst0 : (0 : ℚ) < st := by linarith
    have hmax : max st 0 = st := max_eq_left (le_of_lt hst0)
    have hcond : ¬(max ch 0 ≤ 0 ∧ max st 0 ≤ 0) := by
      rw [hmax]; exact fun hc => absurd hc.2 (not_le.mpr hst0)
    have hchar : select_loop command_connectors (max ch 0) (max st 0) =
        { channels := round_channels (max ch 0), storage := round_storage (max st 0),
          best := (select_fixed command_connectors (round_channels (max ch 0))
            (round_storage (max st 0))).1,
          min_surplus_channels := (select_fixed command_connectors
            (round_channels (max ch 0)) (round_storage (max st 0))).2.1,
          min_surplus_storage := (select_fixed command_connectors
            (round_channels (max ch 0)) (round_storage (max st 0))).2.2 } :=
      select_loop_char _ _ _ _
    have hsome : ((select_fixed command_connectors (round_channels (max ch 0))
        (round_storage (max st 0))).1).isSome :=
      select_fixed_isSome _ _ _ _
    obtain ⟨b, hb⟩ := Option.isSome_iff_exists.mp hsome
    have hbmem : b ∈ command_connectors := by
      rcases sel_step_fixed_fst_mem (round_channels (max ch 0)) (round_storage (max st 0))
        command_connectors (none, ⊤, ⊤) b hb with hm | hnone
      · exact hm
      · cases hnone
    have hround : round_storage (max st 0) = st := by
      rw [hmax]; exact round_storage_gt32 st hst32
    have hble : (b.storage : ℚ) ≤ 32 := command_connectors_storage_le b hbmem
    have hiter : get_connectors_iter ch st acc =
        .inr (if 0 < round_channels (max ch 0)
                then round_channels (max ch 0) - b.low_channels
                else round_channels (max ch 0),
              st - (b.storage : ℚ), acc ++ [b]) := by
      simp only [get_connectors_iter]
      rw [if_neg hcond, hchar]
      simp only [hb]
      rw [hround]
      rw [if_pos hst0]
    simp only [get_connectors_fuel, hiter]
    exact ih _ _ _ (by linarith)

/-- Claim C4: the claim says the greedy selection terminates for demands
up to `(channels, storage) = (1000000, 1000000)`, returning a selection
or an explicit non-convergence failure, never relying on a stack-overflow
crash.  The source recursion reduces storage by at most 32 TB per call,
so this demand needs over 31000 recursive calls; with the Python
interpreter's default recursion limit (about 1000 frames) the call
raises RecursionError — modelled here by fuel exhaustion — instead of
returning. -/
theorem c4_terminates_only_by_recursion_error :
    get_connectors_fuel 1000 1000000 1000000 [] = none :=
  get_connectors_fuel_none 1000 1000000 1000000 [] (by norm_num)

/-- Claim C3: the claim says non-convergence is signalled as a distinct
failure, never an empty recommendation indistinguishable from a
zero-connectors success.  The source catches the RecursionError and
stores the empty list, which is exactly what the genuine zero-demand
success stores. -/
theorem c3_nonconvergence_stored_as_empty_success :
    get_connectors_fuel 1000 (1000000 + 0 * 2) 1000000 [] = none ∧
    (recommend_connector 1000000 0 1000000 1000 {}).recommendations = some [] ∧
    (recommend_connector 0 0 0 1000 {}).recommendations = some [] ∧
    (recommend_connector 1000000 0 1000000 1000 {}).recommendations =
      (recommend_connector 0 0 0 1000 {}).recommendations := by
  have hnone : get_connectors_fuel 1000 1000000 1000000 [] = none :=
    get_connectors_fuel_none 1000 1000000 1000000 [] (by norm_num)
  have hzero : get_connectors_fuel 1000 0 0 [] = some [] := by
    with_unfolding_all decide
  refine ⟨by simpa using hnone, ?_, ?_, ?_⟩
  · simp [recommend_connector, hnone]
  · simp [recommend_connector, hzero]
  · simp [recommend_connector, hnone, hzero]

/-- Claim C9: after every completed selection the recommender stores
`excess_channels` equal to the sum of `low_channels` over the selected
SKUs minus the originally required total channel count
`low + 2 * high`; the value is an unrestricted integer (it may be
negative) and is always written to memory alongside the
recommendations. -/
theorem c9_excess_channels_formula (low high : ℤ) (storage : ℚ) (limit : ℕ)
    (memory : MemoryStorage) :
    ∃ recs, (recommend_connector low high storage limit memory).recommendations = some recs ∧
      (recommend_connector low high storage limit memory).excess_channels =
        some ((recs.map (fun c => c.low_channels)).sum - (low + high * 2)) :=
  ⟨(get_connectors_fuel limit (low + high * 2) storage []).getD [], rfl, rfl⟩

/-- Claim C6, amended: in every iteration the device loop behaves as if
the remaining storage and channels were preference-rounded once before
scoring (storage strictly between 4 and 8, 8 and 16, 16 and 32 TB rounds
up to 8, 16, 32; channels strictly between 10 and 25 rounds up to 25),
but the SKU kept is chosen by `is_better_connector`, which extends the
two-key surplus minimization with a final clause letting a later SKU
with exact channel match win whenever its storage distance is below the
running channel-distance minimum. -/
theorem c6_rounding_then_extra_clause_selection :
    (∀ (ch : ℤ) (st : ℚ), select_loop command_connectors ch st =
      { channels := round_channels ch, storage := round_storage st,
        best := (select_fixed command_connectors (round_channels ch) (round_storage st)).1,
        min_surplus_channels :=
          (select_fixed command_connectors (round_channels ch) (round_storage st)).2.1,
        min_surplus_storage :=
          (select_fixed command_connectors (round_channels ch) (round_storage st)).2.2 }) ∧
    (∀ st : ℚ, 4 < st → st < 8 → round_storage st = 8) ∧
    (∀ st : ℚ, 8 < st → st < 16 → round_storage st = 16) ∧
    (∀ st : ℚ, 16 < st → st < 32 → round_storage st = 32) ∧
    (∀ ch : ℤ, 10 < ch → ch < 25 → round_channels ch = 25) := by
  refine ⟨fun ch st => select_loop_char _ _ _ _, ?_, ?_, ?_, ?_⟩
  · intro st h1 h2
    simp only [round_storage, round_storage1, round_storage2, round_storage3]
    rw [if_pos (show 4 < st ∧ st < 8 from ⟨h1, h2⟩)]
    norm_num
  · intro st h1 h2
    simp only [round_storage, round_storage1, round_storage2, round_storage3]
    rw [if_neg (show ¬(4 < st ∧ st < 8) from by rintro ⟨h3, h4⟩; linarith),
      if_pos (show 8 < st ∧ st < 16 from ⟨h1, h2⟩)]
    norm_num
  · intro st h1 h2
    simp only [round_storage, round_storage1, round_storage2, round_storage3]
    rw [if_neg (show ¬(4 < st ∧ st < 8) from by rintro ⟨h3, h4⟩; linarith),
      if_neg (show ¬(8 < st ∧ st < 16) from by rintro ⟨h3, h4⟩; linarith),
      if_pos (show 16 < st ∧ st < 32 from ⟨h1, h2⟩)]
  · intro ch h1 h2
    simp only [round_channels]
    rw [if_pos (show 10 < ch ∧ ch < 25 from ⟨h1, h2⟩)]

/-- Claim C6, witness: the amended theorem applied at storage 12 (rounds
to 16) and channels 17 (rounds to 25). -/
theorem c6_rounding_then_extra_clause_selection_witness :
    round_storage 12 = 16 ∧ round_channels 17 = 25 :=
  ⟨c6_rounding_then_extra_clause_selection.2.2.1 12 (by norm_num) (by norm_num),
   c6_rounding_then_extra_clause_selection.2.2.2.2 17 (by decide) (by decide)⟩

/-- Claim C7: the claim says retention beyond 90 days is refused with an
invalid-configuration signal distinct from "no connector found".  The
source storage formulas return 0 for retention 91 and the driver
proceeds: with ten low-resolution channels it silently stores the
one-connector recommendation computed for a zero storage requirement,
indistinguishable from a valid success. -/
theorem c7_retention_over_90_silently_proceeds :
    calculate_low_mp_storage 10 91 = 0 ∧ calculate_4k_storage 10 91 = 0 ∧
    (recommend_connectors true 91 [{ verkada_model := some "cam1", count := 10 }]
      [{ model_name := "cam1", manufacturer := "m",
         minimum_supported_firmware_version := "1", notes := "", mp := 2,
         channels := 1 }] 1000 {}).recommendations = some [cc300_4tb] ∧
    (recommend_connectors true 91 [{ verkada_model := some "cam1", count := 10 }]
      [{ model_name := "cam1", manufacturer := "m",
         minimum_supported_firmware_version := "1", notes := "", mp := 2,
         channels := 1 }] 1000 {}).excess_channels = some 0 := by
  refine ⟨by norm_num [calculate_low_mp_storage], by norm_num [calculate_4k_storage], ?_, ?_⟩
  · with_unfolding_all decide
  · with_unfolding_all decide

lemma drop_dup_names_subset :
    ∀ (seen : List (Option String)) (l : List GccRow) (r : GccRow),
      r ∈ drop_dup_names seen l → r ∈ l := by
  intro seen l
  induction l generalizing seen with
  | nil => intro r h; cases h
  | cons a l' ih =>
    intro r h
    unfold drop_dup_names at h
    by_cases ha : a.name ∈ seen
    · rw [if_pos ha] at h
      exact List.mem_cons_of_mem a (ih seen r h)
    · rw [if_neg ha] at h
      rcases List.mem_cons.mp h with hr | hr
      · exact hr ▸ List.mem_cons_self a l'
      · exact List.mem_cons_of_mem a (ih _ r hr)

lemma drop_dup_names_first :
    ∀ (seen : List (Option String)) (l : List GccRow) (r : GccRow),
      r ∈ drop_dup_names seen l →
        r.name ∉ seen ∧ l.find? (fun x => decide (x.name = r.name)) = some r := by
  intro seen l
  induction l generalizing seen with
  | nil => intro r h; cases h
  | cons a l' ih =>
    intro r h
    unfold drop_dup_names at h
    by_cases ha : a.name ∈ seen
    · rw [if_pos ha] at h
      obtain ⟨hns, hfind⟩ := ih seen r h
      have hne : a.name ≠ r.name := fun he => hns (he ▸ ha)
      refine ⟨hns, ?_⟩
      rw [List.find?_cons_of_neg _ (by simpa using hne)]
      exact hfind
    · rw [if_neg ha] at h
      rcases List.mem_cons.mp h with hr | hr
      · subst hr
        exact ⟨ha, by rw [List.find?_cons_of_pos _ (by simp)]⟩
      · obtain ⟨hns, hfind⟩ := ih _ r hr
        have hnsa : r.name ∉ seen := fun hx => hns (List.mem_cons_of_mem _ hx)
        have hne : a.name ≠ r.name := fun he => hns (he ▸ List.mem_cons_self _ _)
        refine ⟨hnsa, ?_⟩
        rw [List.find?_cons_of_neg _ (by simpa using hne)]
        exact hfind

lemma fallback_counts_mem (res : List MatchRow) (r : GccRow)
    (h : r ∈ fallback_counts res) :
    ∃ x ∈ res, r = fallback_row res x := by
  obtain ⟨x, hx, hr⟩ := List.mem_map.mp h
  exact ⟨x, hx, hr.symm⟩

/-- Claim C10, counterexample: on a customer table with string headers
"Model" and "Count" (as `parse_customer_list` produces), the count
pattern first matches at position 1, which is truthy; but the source then
evaluates `customer_list[1]`, a *label* lookup, and no column is labelled
by the integer 1 — the claim says the column is used as a count column,
the source raises KeyError instead. -/
theorem c10_counterexample :
    identify_count_column
      [(Label.str "Model", [some "cam", some "cam"]),
       (Label.str "Count", [some "2", some "3"])] = some 1 ∧
    get_camera_count
      [(Label.str "Model", [some "cam", some "cam"]),
       (Label.str "Count", [some "2", some "3"])]
      [{ name := some "cam", match_type := .exact, verkada_model := some "cam" },
       { name := some "cam", match_type := .exact, verkada_model := some "cam" }] =
      .error .keyError :=
  ⟨by decide, by decide⟩

/-- Claim C10, amended: when the count-header pattern first matches the
column at position 0, `get_camera_count` behaves exactly as if no count
column existed (the returned 0 is falsy), computing counts by name
frequency; when it first matches a strictly positive position i, the
source looks up the column *labelled* by the integer i, and raises
KeyError when no such label exists — in particular for tables whose
labels are the CSV's string headers — instead of using the matched
column. -/
theorem c10_zero_position_falsy_positive_position_label_lookup
    (df : DF) (res : List MatchRow) :
    (identify_count_column df = some 0 →
      get_camera_count df res = .ok (results_pipeline (fallback_counts res)) ∧
      get_camera_count df res = get_camera_count [] res) ∧
    (∀ i : ℕ, identify_count_column df = some i → i ≠ 0 →
      df_get df (.int (i : ℤ)) = none →
      get_camera_count df res = .error .keyError) := by
  constructor
  · intro h0
    constructor
    · simp [get_camera_count, h0]
    · have hemp : get_camera_count ([] : DF) res =
          .ok (results_pipeline (fallback_counts res)) := rfl
      rw [hemp]
      simp [get_camera_count, h0]
  · intro i hi hne hkey
    simp [get_camera_count, hi, hne, hkey]

/-- Claim C10, witness: the amended theorem applied to a table whose
count header sits at position 0 (fallback) and to the counterexample
table (KeyError). -/
theorem c10_zero_position_falsy_positive_position_label_lookup_witness :
    get_camera_count [(Label.str "Count", [some "2"])]
      [{ name := some "cam", match_type := .exact, verkada_model := some "cam" }] =
      .ok (results_pipeline (fallback_counts
        [{ name := some "cam", match_type := .exact, verkada_model := some "cam" }])) ∧
    get_camera_count
      [(Label.str "Model", [some "cam", some "cam"]),
       (Label.str "Count", [some "2", some "3"])]
      [{ name := some "cam", match_type := .exact, verkada_model := some "cam" },
       { name := some "cam", match_type := .exact, verkada_model := some "cam" }] =
      .error .keyError :=
  ⟨((c10_zero_position_falsy_positive_position_label_lookup
      [(Label.str "Count", [some "2"])]
      [{ name := some "cam", match_type := .exact, verkada_model := some "cam" }]).1
      (by decide)).1,
   (c10_zero_position_falsy_positive_position_label_lookup
      [(Label.str "Model", [some "cam", some "cam"]),
       (Label.str "Count", [some "2", some "3"])]
      [{ name := some "cam", match_type := .exact, verkada_model := some "cam" },
       { name := some "cam", match_type := .exact, verkada_model := some "cam" }]).2
      1 (by decide) (by decide) (by decide)⟩

/-- Claim C5, counterexample: headers are "Model", "count" and a column
labelled by the integer 1 (values "7", "9"); the count pattern matches at
position 1 and the label lookup finds the integer-labelled column.  Two
rows share the name "cam" with count-column values "2" and "3": the
claim demands the numeric-coerced sum 5, the source records the raw cell
"7" of the first row (from the integer-labelled column, not even the
matched one). -/
theorem c5_counterexample :
    get_camera_count
      [(Label.str "Model", [some "cam", some "cam"]),
       (Label.str "count", [some "2", some "3"]),
       (Label.int 1, [some "7", some "9"])]
      [{ name := some "cam", match_type := .exact, verkada_model := some "cam" },
       { name := some "cam", match_type := .exact, verkada_model := some "cam" }] =
      .ok [{ name := some "cam", match_type := .exact, verkada_model := some "cam",
             count := .str "7" }] ∧
    claim_count_sum
      [{ name := some "cam", match_type := .exact, verkada_model := some "cam" },
       { name := some "cam", match_type := .exact, verkada_model := some "cam" }]
      [some "2", some "3"] (some "cam") = 5 ∧
    pyRatOfString "7" = some 7 ∧ (7 : ℚ) ≠ 5 :=
  ⟨by decide, by with_unfolding_all decide, by with_unfolding_all decide,
   by with_unfolding_all decide⟩

/-- Claim C5, amended: when no count column is identified (or it sits at
position 0), every surviving result row is named and its count is the
number of result rows bearing that name; when a count column at a truthy
position is identified and the integer-label lookup succeeds, each
surviving row is the *first* row bearing its name and carries that row's
raw count cell — no numeric coercion and no summation over the name
group, so the claimed count conservation does not hold. -/
theorem c5_counts_raw_first_row_not_summed (df : DF) (res : List MatchRow)
    (hwf : ∀ r ∈ res, r.name = none → r.match_type = .empty) :
    (identify_count_column df = none →
      get_camera_count df res = .ok (results_pipeline (fallback_counts res)) ∧
      ∀ r ∈ results_pipeline (fallback_counts res), ∃ n, r.name = some n ∧
        r.count = .int (res.countP (fun x => decide (x.name = some n)))) ∧
    (∀ (i : ℕ) (col : List Cell), identify_count_column df = some i → i ≠ 0 →
      df_get df (.int (i : ℤ)) = some col →
      get_camera_count df res = .ok (results_pipeline (assign_counts res col)) ∧
      ∀ r ∈ results_pipeline (assign_counts res col),
        (assign_counts res col).find? (fun x => decide (x.name = r.name)) = some r) := by
  constructor
  · intro hnone
    refine ⟨by simp [get_camera_count, hnone], ?_⟩
    intro r hr
    have hr' : r ∈ drop_dup_names [] (fallback_counts res) := (List.mem_filter.mp hr).1
    have hcond := (List.mem_filter.mp hr).2
    have hmem : r ∈ fallback_counts res := drop_dup_names_subset [] _ r hr'
    obtain ⟨x, hx, hrx⟩ := fallback_counts_mem res r hmem
    cases hxn : x.name with
    | none =>
      have hempty := hwf x hx hxn
      rw [hrx] at hcond
      simp [fallback_row, hxn, hempty] at hcond
    | some n =>
      refine ⟨n, ?_, ?_⟩
      · rw [hrx]; simp [fallback_row, hxn]
      · rw [hrx]; simp [fallback_row, hxn]
  · intro i col hi hne hcol
    refine ⟨by simp [get_camera_count, hi, hne, hcol], ?_⟩
    intro r hr
    have hr' : r ∈ drop_dup_names [] (assign_counts res col) := (List.mem_filter.mp hr).1
    exact (drop_dup_names_first [] _ r hr').2

/-- Claim C5, witness: the amended theorem applied to a table without a
count column (frequency counting) and to the counterexample table (raw
first-row cell from the integer-labelled column). -/
theorem c5_counts_raw_first_row_not_summed_witness :
    get_camera_count []
      [{ name := some "cam", match_type := .exact, verkada_model := some "cam" }] =
      .ok (results_pipeline (fallback_counts
        [{ name := some "cam", match_type := .exact, verkada_model := some "cam" }])) ∧
    get_camera_count
      [(Label.str "Model", [some "cam", some "cam"]),
       (Label.str "count", [some "2", some "3"]),
       (Label.int 1, [some "7", some "9"])]
      [{ name := some "cam", match_type := .exact, verkada_model := some "cam" },
       { name := some "cam", match_type := .exact, verkada_model := some "cam" }] =
      .ok (results_pipeline (assign_counts
        [{ name := some "cam", match_type := .exact, verkada_model := some "cam" },
         { name := some "cam", match_type := .exact, verkada_model := some "cam" }]
        [some "7", some "9"])) :=
  ⟨((c5_counts_raw_first_row_not_summed []
      [{ name := some "cam", match_type := .exact, verkada_model := some "cam" }]
      (by decide)).1 (by decide)).1,
   ((c5_counts_raw_first_row_not_summed
      [(Label.str "Model", [some "cam", some "cam"]),
       (Label.str "count", [some "2", some "3"]),
       (Label.int 1, [some "7", some "9"])]
      [{ name := some "cam", match_type := .exact, verkada_model := some "cam" },
       { name := some "cam", match_type := .exact, verkada_model := some "cam" }]
      (by decide)).2 1 [some "7", some "9"] (by decide) (by decide) (by decide)).1⟩

lemma score_loop_eq (cams : List String) (hc : cams ≠ []) :
    ∀ (l seen : List String),
      score_loop cams l seen =
        .ok (∑ v ∈ (l.filter (fun s => decide (s ≠ ""))).toFinset \ seen.toFinset,
          best_score token_sort_ratio v cams) := by
  intro l
  induction l with
  | nil => intro seen; simp [score_loop]
  | cons c rest ih =>
    intro seen
    unfold score_loop
    by_cases h1 : c ≠ "" ∧ c ∉ seen
    · rw [if_pos h1]
      obtain ⟨w, hw⟩ := extractOne_eq_best token_sort_ratio c cams hc
      rw [hw, ih (c :: seen)]
      have hfil : (c :: rest).filter (fun s => decide (s ≠ "")) =
          c :: rest.filter (fun s => decide (s ≠ "")) := by
        rw [List.filter_cons]
        simp [h1.1]
      rw [hfil]
      have hset : (c :: rest.filter (fun s => decide (s ≠ ""))).toFinset \ seen.toFinset =
          insert c ((rest.filter (fun s => decide (s ≠ ""))).toFinset \
            (c :: seen).toFinset) := by
        ext x
        simp only [List.toFinset_cons, Finset.mem_sdiff, Finset.mem_insert,
          List.mem_toFinset]
        constructor
        · rintro ⟨hx1 | hx1, hx2⟩
          · exact Or.inl hx1
          · by_cases hxc : x = c
            · exact Or.inl hxc
            · exact Or.inr ⟨hx1, fun hor => hor.elim hxc hx2⟩
        · rintro (hx | ⟨hx1, hx2⟩)
          · subst hx
            exact ⟨Or.inl rfl, h1.2⟩
          · exact ⟨Or.inr hx1, fun hb => hx2 (Or.inr hb)⟩
      rw [hset, Finset.sum_insert (by simp)]
      simp [Except.map]
    · rw [if_neg h1]
      rw [ih seen]
      rcases not_and_or.mp h1 with hc0 | hcs
      · have hceq : c = "" := not_not.mp hc0
        subst hceq
        simp
      · have hcs' : c ∈ seen := not_not.mp hcs
        by_cases hc0 : c = ""
        · subst hc0; simp
        · have hfil : (c :: rest).filter (fun s => decide (s ≠ "")) =
              c :: rest.filter (fun s => decide (s ≠ "")) := by
            rw [List.filter_cons]
            simp [hc0]
          rw [hfil]
          have hset : (c :: rest.filter (fun s => decide (s ≠ ""))).toFinset \
              seen.toFinset =
              (rest.filter (fun s => decide (s ≠ ""))).toFinset \ seen.toFinset := by
            ext x
            simp only [List.toFinset_cons, Finset.mem_sdiff, Finset.mem_insert,
              List.mem_toFinset]
            constructor
            · rintro ⟨hx1 | hx1, hx2⟩
              · subst hx1
                exact absurd hcs' hx2
              · exact ⟨hx1, hx2⟩
            · rintro ⟨hx1, hx2⟩
              exact ⟨Or.inr hx1, hx2⟩
          rw [hset]

lemma calculate_score_eq (cams : List String) (hc : cams ≠ []) (col : List Cell) :
    calculate_score cams col = .ok (column_score_spec cams col) := by
  unfold calculate_score column_score_spec
  by_cases h1 : cleanedCells col = []
  · rw [if_pos h1, h1]
    simp
  · rw [if_neg h1]
    by_cases h2 : (cleanedCells col).all isNumericStr
    · simp [h2]
    · rw [if_neg (by simpa using h2), if_neg (by simpa using h2)]
      rw [score_loop_eq cams hc (col.filterMap id) []]
      simp

lemma identify_mapM (cams : List String) (hc : cams ≠ []) (df : DF) :
    df.mapM (fun lc => (calculate_score cams lc.2).map (fun s => (lc.1, s))) =
      .ok (df.map (fun lc => (lc.1, column_score_spec cams lc.2))) := by
  induction df with
  | nil => rfl
  | cons d rest ih =>
    rw [List.mapM_cons]
    rw [calculate_score_eq cams hc d.2, ih]
    rfl

lemma foldl_max_mem : ∀ (ss : List ℕ) (a : ℕ),
    ss.foldl Nat.max a = a ∨ (ss.foldl Nat.max a) ∈ ss := by
  intro ss
  induction ss with
  | nil => intro a; exact Or.inl rfl
  | cons s rest ih =>
    intro a
    rw [List.foldl_cons]
    have hchoice : Nat.max a s = a ∨ Nat.max a s = s := by
      rcases Nat.le_total a s with hle | hle
      · exact Or.inr (Nat.max_eq_right hle)
      · exact Or.inl (Nat.max_eq_left hle)
    rcases ih (Nat.max a s) with h | h
    · rw [h]
      rcases hchoice with hh | hh
      · rw [hh]
        exact Or.inl rfl
      · rw [hh]
        exact Or.inr (List.mem_cons_self s rest)
    · exact Or.inr (List.mem_cons_of_mem s h)

lemma foldl_max_attained (ss : List ℕ) (h : 0 < ss.foldl Nat.max 0) :
    ss.any (fun s => decide (s = ss.foldl Nat.max 0)) := by
  rcases foldl_max_mem ss 0 with h0 | hmem
  · omega
  · exact List.any_eq_true.mpr ⟨_, hmem, by simp⟩

lemma find_enumFrom (mx : ℕ) :
    ∀ (ss : List ℕ) (k : ℕ), ss.any (fun s => decide (s = mx)) →
      ((List.enumFrom k ss).map (fun q => (Label.int (q.1 : ℤ), q.2))).find?
          (fun p => decide (p.2 = mx)) =
        some (Label.int ((k + ss.findIdx (fun s => decide (s = mx)) : ℕ) : ℤ), mx) := by
  intro ss
  induction ss with
  | nil => intro k h; simp at h
  | cons s rest ih =>
    intro k h
    by_cases hs : s = mx
    · subst hs
      rw [List.enumFrom_cons, List.map_cons, List.find?_cons_of_pos _ (by simp),
        List.findIdx_cons]
      simp
    · rw [List.enumFrom_cons, List.map_cons, List.find?_cons_of_neg _ (by simpa using hs),
        List.findIdx_cons]
      have hrest : rest.any (fun x => decide (x = mx)) := by
        rcases List.any_eq_true.mp h with ⟨x, hx, hxe⟩
        rcases List.mem_cons.mp hx with hxs | hxr
        · exact absurd (by simpa using hxe) (hxs ▸ hs)
        · exact List.any_eq_true.mpr ⟨x, hxr, hxe⟩
      rw [ih (k + 1) hrest]
      have hdec : decide (s = mx) = false := by simpa using hs
      rw [hdec]
      simp only [cond_false]
      have harith : k + 1 + List.findIdx (fun s => decide (s = mx)) rest =
          k + (List.findIdx (fun s => decide (s = mx)) rest + 1) := by omega
      rw [harith]

lemma enum_label_map (f : List Cell → ℕ) :
    ∀ (l : List (List Cell)) (k : ℕ),
      (List.enumFrom k l).map (fun p => (Label.int (p.1 : ℤ), f p.2)) =
        (List.enumFrom k (l.map f)).map (fun q => (Label.int (q.1 : ℤ), q.2)) := by
  intro l
  induction l with
  | nil => intro k; rfl
  | cons c rest ih =>
    intro k
    rw [List.map_cons, List.enumFrom_cons, List.enumFrom_cons, List.map_cons,
      List.map_cons, ih (k + 1)]

/-- Claim C8, counterexample: a one-column table whose header is the
string "Model" (as `parse_customer_list` produces) and whose single cell
matches the catalog exactly.  The claim says the first column index (0)
is returned; the source computes `int(scores.idxmax())` on the *label*
"Model", which raises ValueError. -/
theorem c8_counterexample :
    identify_model_column [(Label.str "Model", [some "cam1"])] ["cam1"] =
      .error .valueError ∧
    claim_identify ["cam1"] [[some "cam1"]] = some 0 :=
  ⟨by decide, by with_unfolding_all decide⟩

/-- Claim C8, amended: on a table whose column labels are the default
integer positions (a CSV read with `header=None`), and a non-empty
catalog, `identify_model_column` returns exactly what the claim
describes: each column scored as the sum over its distinct non-blank
string values of the best token-sort similarity to any catalog name,
entirely-numeric cleaned columns forced to 0, the first position
achieving the strictly greatest positive score returned, and null
(without crashing) when every column scores 0 or the table is empty.
With non-numeric string labels the int() coercion of the winning label
raises ValueError instead (see the counterexample). -/
theorem c8_first_max_position_on_integer_labels
    (cols : List (List Cell)) (cams : List String) (hc : cams ≠ []) :
    identify_model_column (default_labeled cols) cams =
      .ok ((claim_identify cams cols).map (fun n => (n : ℤ))) := by
  unfold identify_model_column claim_identify
  rw [identify_mapM cams hc]
  have hscores : (default_labeled cols).map
      (fun lc => (lc.1, column_score_spec cams lc.2)) =
      (List.enumFrom 0 (cols.map (column_score_spec cams))).map
        (fun q => (Label.int (q.1 : ℤ), q.2)) := by
    unfold default_labeled
    simp only [List.map_map, Function.comp]
    exact enum_label_map (column_score_spec cams) cols 0
  rw [hscores]
  have hsnd : (((List.enumFrom 0 (cols.map (column_score_spec cams))).map
      (fun q => (Label.int (q.1 : ℤ), q.2))).map (fun p => p.2)) =
      cols.map (column_score_spec cams) := by
    simp only [List.map_map, Function.comp]
    exact List.enumFrom_map_snd 0 _
  simp only [hsnd]
  have hemp : ((List.enumFrom 0 (cols.map (column_score_spec cams))).map
      (fun q => (Label.int (q.1 : ℤ), q.2))) = [] ↔ cols = [] := by
    cases cols with
    | nil => simp
    | cons c cs => simp [List.enumFrom_cons]
  simp only [ne_eq, hemp]
  split_ifs with hpos
  · have hatt := foldl_max_attained (cols.map (column_score_spec cams)) hpos.2
    rw [find_enumFrom _ (cols.map (column_score_spec cams)) 0 hatt]
    simp [label_to_int, Except.map]
  · rfl

/-- Claim C8, witness: the amended theorem applied to the two-column
default-labelled table whose first column is numeric and whose second
column matches the catalog: position 1 is returned. -/
theorem c8_first_max_position_on_integer_labels_witness :
    identify_model_column (default_labeled [[some "5"], [some "cam1"]]) ["cam1"] =
      .ok (some 1) :=
  (c8_first_max_position_on_integer_labels [[some "5"], [some "cam1"]] ["cam1"]
    (by decide)).trans (by with_unfolding_all decide)
